import Mathlib

/-!
Shallow embedding of `main.py` from the enum2string repository: a code
generator that scans a parsed C++ translation unit for enum-class
definitions (possibly nested in namespaces) and emits, for each one, a
`const char*`-returning function mapping each enumerator to its spelling.

The clang AST is modelled by `Cursor` (kind, spelling, is-definition flag,
ordered children), mirroring the attributes the Python code consumes.
Python's `str.split("::")`, used by the namespace generators, is embedded
as the structurally recursive `split_on_colons` (greedy left-to-right
split on non-overlapping occurrences of `"::"`).
-/

/-- The cursor kinds distinguished by `main.py` (all others collapse to
`OTHER`, which the code never matches on). -/
inductive CursorKind where
  | ENUM_DECL
  | ENUM_CONSTANT_DECL
  | NAMESPACE
  | TRANSLATION_UNIT
  | OTHER
deriving DecidableEq

/-- An AST node: kind, spelling, is-definition flag and ordered children,
the attributes consumed by `main.py`. -/
inductive Cursor where
  | mk (kind : CursorKind) (spelling : String) (isDef : Bool) (children : List Cursor)

def Cursor.kind : Cursor → CursorKind
  | .mk k _ _ _ => k

def Cursor.spelling : Cursor → String
  | .mk _ sp _ _ => sp

/-- Models clang's `cursor.is_definition()`. -/
def Cursor.is_definition : Cursor → Bool
  | .mk _ _ d _ => d

def Cursor.children : Cursor → List Cursor
  | .mk _ _ _ cs => cs

/-- The namespace-path extension on line 33 of `main.py`:
`new_ns = f"{current_ns}::{child.spelling}" if current_ns else child.spelling`. -/
def extend_ns (current_ns : String) (spelling : String) : String :=
  if current_ns = "" then spelling else current_ns ++ ("::") ++ spelling

/-- Function `get_enumclass_with_namespace` from `main.py` (lines 25-36): walk the
children; an enum-class definition is recorded with the current namespace
string; a namespace child is recursed into with the extended namespace
string; other kinds are skipped. -/
def get_enumclass_with_namespace : Cursor → String → List (Cursor × String)
  | .mk _ _ _ [], _ => []
  | .mk k sp d (child :: rest), current_ns =>
      (if child.kind = CursorKind.ENUM_DECL ∧ child.is_definition = true then
        [(child, current_ns)]
      else if child.kind = CursorKind.NAMESPACE then
        get_enumclass_with_namespace child (extend_ns current_ns child.spelling)
      else []) ++ get_enumclass_with_namespace (.mk k sp d rest) current_ns

/-- Greedy left-to-right split of a character list on non-overlapping
occurrences of `"::"`, with `acc` holding the (reversed) characters of the
chunk being built: the semantics of Python's `str.split("::")`. -/
def splitColonsAux : List Char → List Char → List String
  | [], acc => [String.mk acc.reverse]
  | [c], acc => [String.mk (c :: acc).reverse]
  | c1 :: c2 :: rest, acc =>
      if c1 = ':' ∧ c2 = ':' then
        String.mk acc.reverse :: splitColonsAux rest []
      else
        splitColonsAux (c2 :: rest) (c1 :: acc)

/-- Embeds Python `s.split("::")`. -/
def split_on_colons (s : String) : List String :=
  splitColonsAux s.data []

/-- How the namespace generators read a namespace string back as a list of
segments: `generate_namespace_header`/`_footer` treat `""` as the empty
path and otherwise split on `"::"`. -/
def nsParts (ns : String) : List String :=
  if ns = "" then [] else split_on_colons ns

/-- Function `generate_namespace_header` from `main.py` (lines 38-50): `""` maps to
`""`; otherwise one `namespace X \x7b` line per `"::"`-separated part. -/
def generate_namespace_header (namespace_path : String) : String :=
  if namespace_path = "" then ""
  else String.join ((split_on_colons namespace_path).map
    (fun part => ("namespace ") ++ part ++ (" \x7b\n")))

/-- Function `generate_namespace_footer` from `main.py` (lines 52-63): `""` maps to
`""`; otherwise one `\x7d // namespace X` line per part, in reversed order. -/
def generate_namespace_footer (namespace_path : String) : String :=
  if namespace_path = "" then ""
  else String.join (((split_on_colons namespace_path).reverse).map
    (fun part => ("\x7d // namespace ") ++ part ++ ("\n")))

/-- One insertion into the `items_name` dict of `main.py` line 71-75: a
Python dict keeps the first occurrence's position and ignores later
duplicates of the same key (key and value are the same string here). -/
def dictInsert (acc : List String) (s : String) : List String :=
  if s ∈ acc then acc else acc ++ [s]

/-- The key sequence of the dict comprehension on lines 71-75 of `main.py`:
insertion order with later duplicates collapsed into the first occurrence. -/
def dictKeys (l : List String) : List String :=
  l.foldl dictInsert []

/-- The spellings of an enum node's `ENUM_CONSTANT_DECL` children, in
declaration order (the generator filters children by that kind). -/
def enumeratorSpellings (enum : Cursor) : List String :=
  (enum.children.filter (fun item => item.kind = CursorKind.ENUM_CONSTANT_DECL)).map
    Cursor.spelling

/-- One `case` line of the generated switch (line 84 of `main.py`). -/
def caseLine (enum_name : String) (key : String) : String :=
  ("        case ") ++ enum_name ++ ("::") ++ key ++ (": return \"") ++ key ++ ("\";\n")

/-- The closing text of the generated function (lines 86-89 of `main.py`):
the default case returning `"Unknown error"` and the closing braces. -/
def defaultAndClose : String :=
  ("        default: return \"Unknown error\";\n    \x7d\n\x7d\n")

/-- Function `generate_error_msg_function` from `main.py` (lines 67-90). -/
def generate_error_msg_function (enum : Cursor) : String :=
  let enum_name := enum.spelling
  let items_name := dictKeys (enumeratorSpellings enum)
  let function_name := ("error_msg_") ++ enum_name.toLower
  ("const char* ") ++ function_name ++ ("(") ++ enum_name ++
    (" err) \x7b\n    switch(err) \x7b\n") ++
    String.join (items_name.map (caseLine enum_name)) ++
    defaultAndClose

/-- Python's `print`: the argument followed by a newline on stdout. -/
def printLine (s : String) : String := s ++ ("\n")

/-- The stdout of the success path of `main` (lines 103-113 of `main.py`):
banner, include directive, then per extracted enum the namespace header,
the generated function and the namespace footer, each via `print`. -/
def main_output (root : Cursor) (cpp_file : String) : String :=
  let enums_and_ns := get_enumclass_with_namespace root ("")
  printLine ("// Auto-generated error_msg function\n") ++
  printLine (("#include \"") ++ cpp_file ++ ("\"\n")) ++
  String.join (enums_and_ns.map (fun r =>
    printLine (generate_namespace_header r.2) ++
    printLine (generate_error_msg_function r.1) ++
    printLine (generate_namespace_footer r.2)))

/-- The whole `main` run (lines 103-117 of `main.py`) as a function of the
parse outcome: on success the generated text and exit code 0; on a parse
or processing error the single `Error: <message>` line and exit code 1. -/
def run_main (parse_result : Except String Cursor) (cpp_file : String) :
    String × Nat :=
  match parse_result with
  | .ok root => (main_output root cpp_file, 0)
  | .error e => (printLine (("Error: ") ++ e), 1)

/-- Char-level inverse of `splitColonsAux`: interleave `"::"` between the
chunks (used to state the split/join round-trip). -/
def joinColons : List String → List Char
  | [] => []
  | [p] => p.data
  | p :: q :: t => p.data ++ ':' :: ':' :: joinColons (q :: t)

/- Concrete fixtures used by the witnesses, examples and counterexamples. -/

/-- Fixture `enum class E1 { A, B };`. -/
def exE1 : Cursor :=
  .mk .ENUM_DECL ("E1") true
    [.mk .ENUM_CONSTANT_DECL ("A") true [], .mk .ENUM_CONSTANT_DECL ("B") true []]

/-- Fixture `enum class E2 { C };`. -/
def exE2 : Cursor :=
  .mk .ENUM_DECL ("E2") true [.mk .ENUM_CONSTANT_DECL ("C") true []]

/-- Fixture `enum class E3 { D };`. -/
def exE3 : Cursor :=
  .mk .ENUM_DECL ("E3") true [.mk .ENUM_CONSTANT_DECL ("D") true []]

/-- A translation unit declaring, in order, `namespace N { enum class E1
{...}; enum class E2 {...}; }` and then `enum class E3 {...}` at top
level; it also contains a forward declaration of an enum and a
non-enum node, which extraction must skip. -/
def exampleTU : Cursor :=
  .mk .TRANSLATION_UNIT ("") false
    [.mk .ENUM_DECL ("Fwd") false [],
     .mk .NAMESPACE ("N") true [exE1, exE2],
     .mk .OTHER ("f") true [],
     exE3]

/-- Fixture `enum class Color { Red, Green, Blue };`. -/
def colorEnum : Cursor :=
  .mk .ENUM_DECL ("Color") true
    [.mk .ENUM_CONSTANT_DECL ("Red") true [],
     .mk .ENUM_CONSTANT_DECL ("Green") true [],
     .mk .ENUM_CONSTANT_DECL ("Blue") true []]

/-- An enum node whose children carry a duplicated enumerator spelling
(`A`, `B`, `A`). -/
def dupEnum : Cursor :=
  .mk .ENUM_DECL ("Dup") true
    [.mk .ENUM_CONSTANT_DECL ("A") true [],
     .mk .ENUM_CONSTANT_DECL ("B") true [],
     .mk .ENUM_CONSTANT_DECL ("A") true []]

/-- Fixture `enum class E { A };` inside an anonymous namespace at the top
level of a translation unit. -/
def anonEnum : Cursor :=
  .mk .ENUM_DECL ("E") true [.mk .ENUM_CONSTANT_DECL ("A") true []]

def anonTU : Cursor :=
  .mk .TRANSLATION_UNIT ("") false [.mk .NAMESPACE ("") true [anonEnum]]

/-- A translation unit with no enum-class definitions at all. -/
def noEnumTU : Cursor :=
  .mk .TRANSLATION_UNIT ("") false [.mk .OTHER ("f") true []]

/-- Fixture `namespace A { namespace <anonymous> { enum class E { A }; } }`. -/
def nestedAnonTU : Cursor :=
  .mk .TRANSLATION_UNIT ("") false
    [.mk .NAMESPACE ("A") true [.mk .NAMESPACE ("") true [anonEnum]]]

/-! ## Helper lemmas -/

theorem foldl_dictInsert_of_nodup (l : List String) (acc : List String)
    (h : (acc ++ l).Nodup) : l.foldl dictInsert acc = acc ++ l := by
  induction l generalizing acc with
  | nil => simp
  | cons a l ih =>
      have hmem : a ∉ acc := by
        rcases (List.nodup_append.mp h) with ⟨_, _, hdisj⟩
        intro hmemAcc
        exact hdisj hmemAcc (List.mem_cons_self a l)
      have hstep : dictInsert acc a = acc ++ [a] := by
        simp [dictInsert, hmem]
      have h' : ((acc ++ [a]) ++ l).Nodup := by
        simpa using h
      calc (a :: l).foldl dictInsert acc
          = l.foldl dictInsert (acc ++ [a]) := by simp [List.foldl_cons, hstep]
        _ = (acc ++ [a]) ++ l := ih (acc ++ [a]) h'
        _ = acc ++ a :: l := by simp

theorem dictKeys_of_nodup (l : List String) (h : l.Nodup) : dictKeys l = l := by
  simpa [dictKeys] using foldl_dictInsert_of_nodup l [] (by simpa using h)

theorem foldl_dictInsert_nodup (l : List String) (acc : List String)
    (h : acc.Nodup) : (l.foldl dictInsert acc).Nodup := by
  induction l generalizing acc with
  | nil => simpa
  | cons a l ih =>
      apply ih
      by_cases hmem : a ∈ acc
      · simpa [dictInsert, hmem]
      · simp [dictInsert, hmem, List.nodup_append, h]

theorem mem_foldl_dictInsert (l : List String) (acc : List String) (a : String) :
    a ∈ l.foldl dictInsert acc ↔ a ∈ acc ∨ a ∈ l := by
  induction l generalizing acc with
  | nil => simp
  | cons b l ih =>
      have hstep : a ∈ dictInsert acc b ↔ a ∈ acc ∨ a = b := by
        by_cases hmem : b ∈ acc
        · simp only [dictInsert, if_pos hmem]
          constructor
          · exact fun hx => Or.inl hx
          · rintro (hx | hx)
            · exact hx
            · exact hx ▸ hmem
        · simp [dictInsert, hmem]
      rw [List.foldl_cons, ih, hstep]
      simp [or_assoc]

theorem foldl_dictInsert_sublist (l : List String) (acc : List String) :
    (l.foldl dictInsert acc).Sublist (acc ++ l) := by
  induction l generalizing acc with
  | nil => simp
  | cons b l ih =>
      have h1 : ((b :: l).foldl dictInsert acc).Sublist (dictInsert acc b ++ l) := by
        simpa [List.foldl_cons] using ih (dictInsert acc b)
      apply h1.trans
      by_cases hmem : b ∈ acc
      · simp only [dictInsert, if_pos hmem]
        exact List.Sublist.append_left (List.sublist_cons_self b l) acc
      · simp [dictInsert, hmem]

theorem splitColonsAux_ne_nil (l acc : List Char) : splitColonsAux l acc ≠ [] := by
  induction l, acc using splitColonsAux.induct with
  | case1 acc => simp [splitColonsAux]
  | case2 c acc => simp [splitColonsAux]
  | case3 c1 c2 rest acc h ih => simp [splitColonsAux, h]
  | case4 c1 c2 rest acc h ih => simpa [splitColonsAux, h] using ih

theorem splitColonsAux_no_colon (l acc : List Char) (h : ∀ c ∈ l, c ≠ ':') :
    splitColonsAux l acc = [String.mk (acc.reverse ++ l)] := by
  induction l, acc using splitColonsAux.induct with
  | case1 acc => simp [splitColonsAux]
  | case2 c acc => simp [splitColonsAux]
  | case3 c1 c2 rest acc hcol ih =>
      exact absurd hcol.1 (h c1 (by simp))
  | case4 c1 c2 rest acc hcol ih =>
      have h' : ∀ c ∈ c2 :: rest, c ≠ ':' := fun c hc => h c (List.mem_cons_of_mem c1 hc)
      rw [splitColonsAux, if_neg hcol, ih h']
      simp

theorem splitColonsAux_append_sep (a : List Char) (ha : ∀ c ∈ a, c ≠ ':')
    (b acc : List Char) :
    splitColonsAux (a ++ ':' :: ':' :: b) acc =
      String.mk (acc.reverse ++ a) :: splitColonsAux b [] := by
  induction a generalizing acc with
  | nil => simp [splitColonsAux]
  | cons c a' ih =>
      have hc : c ≠ ':' := ha c (by simp)
      have ha' : ∀ ch ∈ a', ch ≠ ':' := fun ch hch => ha ch (List.mem_cons_of_mem c hch)
      cases a' with
      | nil =>
          rw [List.cons_append, List.nil_append, splitColonsAux,
            if_neg (by simp [hc])]
          rw [show (':' :: ':' :: b) = (([] : List Char) ++ ':' :: ':' :: b) by simp,
            ih ha' (c :: acc)]
          simp
      | cons c2 a'' =>
          rw [List.cons_append, List.cons_append, splitColonsAux,
            if_neg (by simp [hc]), ← List.cons_append]
          rw [ih ha' (c :: acc)]
          simp

theorem joinColons_splitColonsAux (l acc : List Char) :
    joinColons (splitColonsAux l acc) = acc.reverse ++ l := by
  induction l, acc using splitColonsAux.induct with
  | case1 acc => simp [splitColonsAux, joinColons]
  | case2 c acc => simp [splitColonsAux, joinColons]
  | case3 c1 c2 rest acc hcol ih =>
      rw [splitColonsAux, if_pos hcol]
      obtain ⟨q, t, hqt⟩ : ∃ q t, splitColonsAux rest [] = q :: t := by
        cases hsplit : splitColonsAux rest [] with
        | nil => exact absurd hsplit (splitColonsAux_ne_nil rest [])
        | cons q t => exact ⟨q, t, rfl⟩
      rw [hqt, joinColons, ← hqt, ih]
      simp [hcol.1, hcol.2]
  | case4 c1 c2 rest acc hcol ih =>
      rw [splitColonsAux, if_neg hcol, ih]
      simp

theorem split_on_colons_ne_nil (s : String) : split_on_colons s ≠ [] :=
  splitColonsAux_ne_nil s.data []

theorem joinColons_split_on_colons (s : String) :
    joinColons (split_on_colons s) = s.data := by
  simpa using joinColons_splitColonsAux s.data []

theorem splitColonsAux_joinColons (P : List String) (hne : P ≠ [])
    (hparts : ∀ p ∈ P, ∀ c ∈ p.data, c ≠ ':')
    (s : String) (hs : ∀ c ∈ s.data, c ≠ ':') :
    splitColonsAux (joinColons P ++ ':' :: ':' :: s.data) [] = P ++ [s] := by
  induction P with
  | nil => exact absurd rfl hne
  | cons p P' ih =>
      have hp : ∀ c ∈ p.data, c ≠ ':' := hparts p (by simp)
      cases P' with
      | nil =>
          rw [joinColons, splitColonsAux_append_sep p.data hp s.data [],
            splitColonsAux_no_colon s.data [] hs]
          simp
      | cons q t =>
          have hP' : ∀ r ∈ q :: t, ∀ c ∈ r.data, c ≠ ':' :=
            fun r hr => hparts r (List.mem_cons_of_mem p hr)
          rw [joinColons, List.append_assoc, List.cons_append, List.cons_append,
            splitColonsAux_append_sep p.data hp _ []]
          rw [ih (by simp) hP']
          simp

/-- Shared concrete evaluation of extraction on `exampleTU`. -/
theorem extract_exampleTU :
    get_enumclass_with_namespace exampleTU ("") =
      [(exE1, ("N")), (exE2, ("N")), (exE3, (""))] := by
  simp [get_enumclass_with_namespace, exampleTU, exE1, exE2, exE3,
    Cursor.kind, Cursor.is_definition, Cursor.spelling, extend_ns]

/-- Core of the namespace-path extension analysis: `extend_ns`, read back
through the segment decoding `nsParts` used by the generators, appends one
segment — except that from the empty path an empty spelling yields the
empty path again. -/
theorem nsParts_extend_ns (cur s : String)
    (hs : ∀ c ∈ s.data, c ≠ ':')
    (hcur : ∀ p ∈ nsParts cur, ∀ c ∈ p.data, c ≠ ':') :
    nsParts (extend_ns cur s) =
      if cur = "" ∧ s = "" then [] else nsParts cur ++ [s] := by
  by_cases hc : cur = ""
  · subst hc
    by_cases hs0 : s = ""
    · subst hs0
      simp [extend_ns, nsParts]
    · rw [if_neg (by simp [hs0])]
      have hsplit : splitColonsAux s.data [] = [String.mk s.data] := by
        simpa using splitColonsAux_no_colon s.data [] hs
      simp [extend_ns, nsParts, hs0, split_on_colons, hsplit]
  · have hdata : (extend_ns cur s).data = cur.data ++ ':' :: ':' :: s.data := by
      simp [extend_ns, hc, String.data_append]
    have hne : extend_ns cur s ≠ "" := by
      intro habs
      have : (extend_ns cur s).data = [] := by rw [habs]
      rw [hdata] at this
      simp at this
    have hP : nsParts cur = split_on_colons cur := by simp [nsParts, hc]
    have hparts : ∀ p ∈ split_on_colons cur, ∀ c ∈ p.data, c ≠ ':' := by
      rw [← hP]; exact hcur
    have hjoin : joinColons (split_on_colons cur) = cur.data :=
      joinColons_split_on_colons cur
    rw [if_neg (by simp [hc])]
    rw [nsParts, if_neg hne, split_on_colons, hdata, ← hjoin]
    rw [splitColonsAux_joinColons (split_on_colons cur)
      (split_on_colons_ne_nil cur) hparts s hs]
    rw [hP]

/-! ## Claim theorems -/

/-- C1: for an extracted enum whose enumerators have pairwise-distinct
spellings, the generated text is the function header, then exactly one
`case` line per enumerator in declaration order — each returning the
enumerator's identifier verbatim as a double-quoted string literal — and
then exactly one `default` case returning `Unknown error`. -/
theorem generated_function_cases_of_nodup (enum : Cursor)
    (h : (enumeratorSpellings enum).Nodup) :
    generate_error_msg_function enum =
      ("const char* ") ++ (("error_msg_") ++ enum.spelling.toLower) ++ ("(") ++
        enum.spelling ++ (" err) \x7b\n    switch(err) \x7b\n") ++
        String.join ((enumeratorSpellings enum).map (caseLine enum.spelling)) ++
        defaultAndClose ∧
    ((enumeratorSpellings enum).map (caseLine enum.spelling)).length =
      (enumeratorSpellings enum).length := by
  constructor
  · simp only [generate_error_msg_function]
    rw [dictKeys_of_nodup _ h]
  · exact List.length_map _ _

/-- Witness for C1 at `enum class Color { Red, Green, Blue };`. -/
theorem generated_function_cases_witness :
    generate_error_msg_function colorEnum =
      ("const char* ") ++ (("error_msg_") ++ colorEnum.spelling.toLower) ++ ("(") ++
        colorEnum.spelling ++ (" err) \x7b\n    switch(err) \x7b\n") ++
        String.join ((enumeratorSpellings colorEnum).map (caseLine colorEnum.spelling)) ++
        defaultAndClose ∧
    ((enumeratorSpellings colorEnum).map (caseLine colorEnum.spelling)).length =
      (enumeratorSpellings colorEnum).length :=
  generated_function_cases_of_nodup colorEnum (by decide)

/-- C2: extraction processes the children of a node in declaration order,
children before siblings (an enum-class definition contributes its record
at its own position; a namespace contributes, in place, everything found
inside it); on the example with `E1`, `E2` inside `namespace N` followed
by a top-level `E3` it returns exactly
`[(E1, N), (E2, N), (E3, global)]`. -/
theorem extraction_order_dfs :
    (∀ (k : CursorKind) (sp : String) (d : Bool) (cs : List Cursor) (ns : String),
      get_enumclass_with_namespace (.mk k sp d cs) ns =
        (cs.map (fun child =>
          if child.kind = CursorKind.ENUM_DECL ∧ child.is_definition = true then
            [(child, ns)]
          else if child.kind = CursorKind.NAMESPACE then
            get_enumclass_with_namespace child (extend_ns ns child.spelling)
          else [])).flatten) ∧
    (get_enumclass_with_namespace exampleTU ("") =
      [(exE1, ("N")), (exE2, ("N")), (exE3, (""))]) ∧
    ((get_enumclass_with_namespace exampleTU ("")).map (fun r => nsParts r.2) =
      [[("N")], [("N")], []]) := by
  refine ⟨?_, extract_exampleTU, ?_⟩
  · intro k sp d cs ns
    induction cs with
    | nil => simp [get_enumclass_with_namespace]
    | cons c cs ih =>
        rw [get_enumclass_with_namespace, ih]
        simp
  · rw [extract_exampleTU]
    decide

/-- C3: the namespace prologue is exactly one `namespace X \x7b` line per
path segment, outermost first, and the epilogue exactly one
`\x7d // namespace X` line per segment in reversed order; the empty path
yields empty strings for both. -/
theorem namespace_header_footer_roundtrip :
    (∀ ns : String,
      generate_namespace_header ns =
        String.join ((nsParts ns).map (fun part => ("namespace ") ++ part ++ (" \x7b\n"))) ∧
      generate_namespace_footer ns =
        String.join (((nsParts ns).reverse).map
          (fun part => ("\x7d // namespace ") ++ part ++ ("\n"))) ∧
      ((nsParts ns).map (fun part => ("namespace ") ++ part ++ (" \x7b\n"))).length =
        (nsParts ns).length) ∧
    (generate_namespace_header ("") = "" ∧ generate_namespace_footer ("") = "") ∧
    (generate_namespace_header ("A::B") = ("namespace A \x7b\nnamespace B \x7b\n") ∧
      generate_namespace_footer ("A::B") = ("\x7d // namespace B\n\x7d // namespace A\n")) := by
  refine ⟨?_, ⟨rfl, rfl⟩, by decide, by decide⟩
  intro ns
  by_cases h : ns = "" <;>
    simp [generate_namespace_header, generate_namespace_footer, nsParts, h,
      String.join]

/-- C4: every record produced by extraction is an enum-class definition:
its node has kind `ENUM_DECL` and `is_definition = true`; forward
declarations and nodes of any other kind never appear in the result. -/
theorem extracted_records_are_enum_definitions :
    ∀ (node : Cursor) (ns : String) (c : Cursor) (p : String),
      (c, p) ∈ get_enumclass_with_namespace node ns →
      c.kind = CursorKind.ENUM_DECL ∧ c.is_definition = true := by
  intro node ns
  induction node, ns using get_enumclass_with_namespace.induct with
  | case1 k sp d ns =>
      intro c p h
      simp [get_enumclass_with_namespace] at h
  | case2 k sp d child rest ns ih1 ih2 =>
      intro c p h
      rw [get_enumclass_with_namespace] at h
      rcases List.mem_append.mp h with h | h
      · by_cases h1 : child.kind = CursorKind.ENUM_DECL ∧ child.is_definition = true
        · rw [if_pos h1] at h
          have : c = child ∧ p = ns := by simpa using h
          rcases this with ⟨rfl, rfl⟩
          exact h1
        · rw [if_neg h1] at h
          by_cases h2 : child.kind = CursorKind.NAMESPACE
          · rw [if_pos h2] at h
            exact ih1 c p h
          · rw [if_neg h2] at h
            simp at h
      · exact ih2 c p h

/-- Witness for C4: the record `(E1, N)` extracted from the example
translation unit is an enum-class definition. -/
theorem extracted_records_witness :
    exE1.kind = CursorKind.ENUM_DECL ∧ exE1.is_definition = true :=
  extracted_records_are_enum_definitions exampleTU ("") exE1 ("N")
    (by rw [extract_exampleTU]; exact List.mem_cons_self _ _)

/-- C5 (amended): for colon-free namespace names, the path recorded for
enums inside a namespace is the parent path extended by the namespace's
own name — an anonymous namespace contributing an empty-string segment —
EXCEPT that an anonymous namespace at the outermost level (empty parent
path) contributes no segment: the recorded path stays empty. -/
theorem extraction_path_extension (cur s : String)
    (hs : ∀ c ∈ s.data, c ≠ ':')
    (hcur : ∀ p ∈ nsParts cur, ∀ c ∈ p.data, c ≠ ':') :
    nsParts (extend_ns cur s) =
      if cur = "" ∧ s = "" then [] else nsParts cur ++ [s] :=
  nsParts_extend_ns cur s hs hcur

/-- Witness for C5: extending the path `A` by an anonymous (empty-spelled)
namespace records the segments `[A, ""]`. -/
theorem extraction_path_extension_witness :
    nsParts (extend_ns ("A") ("")) =
      if ("A" : String) = "" ∧ ("" : String) = "" then []
      else nsParts ("A") ++ [("")] :=
  extraction_path_extension ("A") ("") (by decide) (by decide)

/-- Counterexample to C5 as stated: for an enum inside an anonymous
namespace at top level, the recorded path decodes to the empty segment
list, not to the parent path extended by an empty-string segment. -/
theorem extraction_path_anonymous_counterexample :
    ((get_enumclass_with_namespace anonTU ("")).map (fun r => nsParts r.2)) = [[]] ∧
    ([([] : List String)] ≠ [[("")]]) := by
  constructor
  · simp [get_enumclass_with_namespace, anonTU, anonEnum, Cursor.kind,
      Cursor.is_definition, Cursor.spelling, extend_ns, nsParts]
  · decide

/-- C6: the success-path output is exactly one banner comment line, a
blank line, one include directive referencing the input path, a blank
line, then for each extracted enum in discovery order its namespace
prologue, generated function and namespace epilogue, each followed by a
blank line; with zero enums only banner and include remain. -/
theorem main_output_structure :
    (∀ (root : Cursor) (f : String),
      main_output root f =
        (("// Auto-generated error_msg function\n") ++ ("\n")) ++
        (((("#include \"") ++ f ++ ("\"\n")) ++ ("\n")) ++
          String.join ((get_enumclass_with_namespace root ("")).map (fun r =>
            (generate_namespace_header r.2 ++ ("\n")) ++
            ((generate_error_msg_function r.1 ++ ("\n")) ++
              (generate_namespace_footer r.2 ++ ("\n"))))))) ∧
    (∀ (root : Cursor) (f : String),
      get_enumclass_with_namespace root ("") = [] →
      main_output root f =
        (("// Auto-generated error_msg function\n") ++ ("\n")) ++
        ((("#include \"") ++ f ++ ("\"\n")) ++ ("\n"))) := by
  constructor
  · intro root f
    simp [main_output, printLine, String.append_assoc]
  · intro root f h
    simp [main_output, printLine, h, String.join, String.append_assoc]

/-- Witness for C6 on a translation unit with no enum classes: the output
is just the banner and the include line. -/
theorem main_output_structure_witness :
    main_output noEnumTU ("input.cpp") =
      (("// Auto-generated error_msg function\n") ++ ("\n")) ++
      ((("#include \"") ++ ("input.cpp") ++ ("\"\n")) ++ ("\n")) :=
  main_output_structure.2 noEnumTU ("input.cpp")
    (by simp [get_enumclass_with_namespace, noEnumTU, Cursor.kind,
      Cursor.is_definition])

/-- C7: every generated function is named `error_msg_` followed by the
enum's own name lower-cased, and declares the non-owning literal-pointer
return type `const char*`; the same return-type text is used for every
enum in a run. -/
theorem generated_function_name_and_return_type :
    ∀ enum : Cursor,
      generate_error_msg_function enum =
        ("const char* ") ++ (("error_msg_") ++ enum.spelling.toLower) ++ ("(") ++
          enum.spelling ++ (" err) \x7b\n    switch(err) \x7b\n") ++
          String.join ((dictKeys (enumeratorSpellings enum)).map
            (caseLine enum.spelling)) ++
          defaultAndClose :=
  fun _ => rfl

/-- C8: the run exits 1 exactly when the parse step fails, printing the
single line `Error: <message>` and nothing else; a successful parse exits
0 (even when zero enums are found). -/
theorem run_main_exit_codes :
    ∀ (r : Except String Cursor) (f : String),
      ((run_main r f).2 = 1 ↔ ∃ e, r = Except.error e) ∧
      ((run_main r f).2 = 0 ↔ ∃ root, r = Except.ok root) ∧
      (∀ e, run_main (Except.error e) f = ((("Error: ") ++ e ++ ("\n")), 1)) ∧
      (∀ root, (run_main (Except.ok root) f).2 = 0) := by
  intro r f
  refine ⟨?_, ?_, fun e => rfl, fun root => rfl⟩ <;>
    cases r <;> simp [run_main, printLine]

/-- C9: generation is deterministic — two runs over the same parsed
translation unit and input path produce byte-identical output. -/
theorem generation_deterministic :
    ∀ (root : Cursor) (f out1 out2 : String),
      out1 = main_output root f → out2 = main_output root f → out1 = out2 := by
  intro root f out1 out2 h1 h2
  rw [h1, h2]

/-- Witness for C9 at a concrete translation unit and path. -/
theorem generation_deterministic_witness :
    main_output exampleTU ("input.cpp") = main_output exampleTU ("input.cpp") :=
  generation_deterministic exampleTU ("input.cpp") _ _ rfl rfl

/-- C10: the dict comprehension collapses later duplicate enumerator
spellings into the earlier occurrence: the case-label keys are duplicate
free, have exactly the members of the spelling list, keep declaration
(first-occurrence) order, and number as many as the distinct spellings;
on `enum class Dup { A, B, A };` the generator emits case lines for `A`
and `B` only. -/
theorem duplicate_spellings_collapse :
    (∀ l : List String, (dictKeys l).Nodup) ∧
    (∀ (l : List String) (a : String), a ∈ dictKeys l ↔ a ∈ l) ∧
    (∀ l : List String, (dictKeys l).Sublist l) ∧
    (∀ l : List String, (dictKeys l).length = l.toFinset.card) ∧
    (enumeratorSpellings dupEnum = [("A"), ("B"), ("A")] ∧
      dictKeys [("A"), ("B"), ("A")] = [("A"), ("B")]) ∧
    (generate_error_msg_function dupEnum =
      ("const char* ") ++ (("error_msg_") ++ dupEnum.spelling.toLower) ++ ("(") ++
        dupEnum.spelling ++ (" err) \x7b\n    switch(err) \x7b\n") ++
        String.join ([("A"), ("B")].map (caseLine dupEnum.spelling)) ++
        defaultAndClose) := by
  have hnodup : ∀ l : List String, (dictKeys l).Nodup :=
    fun l => foldl_dictInsert_nodup l [] List.nodup_nil
  have hmem : ∀ (l : List String) (a : String), a ∈ dictKeys l ↔ a ∈ l :=
    fun l a => by simpa [dictKeys] using mem_foldl_dictInsert l [] a
  refine ⟨hnodup, hmem, ?_, ?_, ⟨by decide, by decide⟩, ?_⟩
  · intro l
    simpa [dictKeys] using foldl_dictInsert_sublist l []
  · intro l
    rw [← List.toFinset_card_of_nodup (hnodup l)]
    congr 1
    ext x
    simp [List.mem_toFinset, hmem]
  · have hkeys : dictKeys (enumeratorSpellings dupEnum) = [("A"), ("B")] := by
      decide
    simp only [generate_error_msg_function, hkeys]
